import Mathlib

/-!
Verification of the ledger core of the Expense Tracker application
(`expense.py`, class `ExpenseTracker`).

The embedding models:
  * amounts as rationals (exact arithmetic over the program's decimal values);
  * dates as structured calendar days (`Date`), a month filter as a
    year/month pair (the program compares the `strftime "%Y-%m"` rendering
    of a parsed date with the month string);
  * Python dicts (category spending, budget limits, monthly summary) as
    insertion-ordered association lists with in-place value update, which
    is Python dict semantics;
  * the JSON backing file as a `Resource` (missing file / unparseable
    document / parsed document), with `load_data` returning `Except` to
    model exception propagation.
-/

inductive TransactionType where
  | income
  | expense
deriving DecidableEq, Repr

def TransactionType.value : TransactionType → String
  | .income => "income"
  | .expense => "expense"

structure Date where
  year : Nat
  month : Nat
  day : Nat
deriving DecidableEq, Repr

abbrev Month := Nat × Nat

def Date.ym (d : Date) : Month := (d.year, d.month)

structure Transaction where
  id : Int
  type : TransactionType
  amount : ℚ
  category : String
  description : String
  date : Date
  tags : List String
deriving DecidableEq, Repr

/-- Insertion-ordered dictionary lookup (Python `d[k]` / `k in d`). -/
def dictLookup {κ α : Type} [DecidableEq κ] : List (κ × α) → κ → Option α
  | [], _ => none
  | (k', v) :: rest, k => if k' = k then some v else dictLookup rest k

/-- Python `d.get(k, default)`. -/
def dictGetD {κ α : Type} [DecidableEq κ] (l : List (κ × α)) (k : κ) (d : α) : α :=
  (dictLookup l k).getD d

/-- Python `d[k] = v`: update in place if present, else append. -/
def dictUpsert {κ α : Type} [DecidableEq κ] : List (κ × α) → κ → α → List (κ × α)
  | [], k, v => [(k, v)]
  | (k', v') :: rest, k, v =>
      if k' = k then (k, v) :: rest else (k', v') :: dictUpsert rest k v

structure ExpenseTracker where
  transactions : List Transaction
  budget_limits : List (String × ℚ)
deriving DecidableEq, Repr

/-- `month is None or trans_date.strftime("%Y-%m") == month`. -/
def monthMatches (m : Option Month) (d : Date) : Bool :=
  match m with
  | none => true
  | some ym => decide (d.ym = ym)

/-- Loop body of `get_category_spending`. -/
def gcsStep (month : Option Month) (spending : List (String × ℚ)) (t : Transaction) :
    List (String × ℚ) :=
  if t.type = TransactionType.expense then
    if monthMatches month t.date then
      dictUpsert spending t.category (dictGetD spending t.category 0 + t.amount)
    else spending
  else spending

/-- `ExpenseTracker.get_category_spending`. -/
def get_category_spending (s : ExpenseTracker) (month : Option Month) :
    List (String × ℚ) :=
  s.transactions.foldl (gcsStep month) []

structure Alert where
  category : String
  limit : ℚ
  spent : ℚ
  exceeded_by : ℚ
deriving DecidableEq, Repr

/-- Loop body of `check_budget_alerts`. -/
def cbaStep (spending : List (String × ℚ)) (alerts : List Alert) (p : String × ℚ) :
    List Alert :=
  let spent := dictGetD spending p.1 0
  if p.2 < spent then alerts ++ [⟨p.1, p.2, spent, spent - p.2⟩] else alerts

/-- `ExpenseTracker.check_budget_alerts`. -/
def check_budget_alerts (s : ExpenseTracker) (month : Option Month) : List Alert :=
  s.budget_limits.foldl (cbaStep (get_category_spending s month)) []

structure PLResult where
  total_income : ℚ
  total_expenses : ℚ
  net_profit : ℚ
  profit_margin : ℚ
  is_profitable : Bool
deriving DecidableEq, Repr

/-- Loop body of `calculate_profit_loss`: income goes to the first total,
anything else (i.e. expense) to the second. -/
def cplStep (month : Option Month) (acc : ℚ × ℚ) (t : Transaction) : ℚ × ℚ :=
  if monthMatches month t.date then
    match t.type with
    | .income => (acc.1 + t.amount, acc.2)
    | .expense => (acc.1, acc.2 + t.amount)
  else acc

/-- `ExpenseTracker.calculate_profit_loss`. -/
def calculate_profit_loss (s : ExpenseTracker) (month : Option Month) : PLResult :=
  let tot := s.transactions.foldl (cplStep month) (0, 0)
  let net := tot.1 - tot.2
  { total_income := tot.1
    total_expenses := tot.2
    net_profit := net
    profit_margin := if 0 < tot.1 then net / tot.1 * 100 else 0
    is_profitable := decide (0 < net) }

/-- `ExpenseTracker.get_next_id`: 1 on an empty list, else max id + 1. -/
def get_next_id : List Transaction → Int
  | [] => 1
  | t :: rest => rest.foldl (fun m x => max m x.id) t.id + 1

/-- `ExpenseTracker.add_transaction`; `today` models `datetime.now()`. -/
def add_transaction (s : ExpenseTracker) (type : TransactionType) (amount : ℚ)
    (category : String) (description : String) (today : Date) (tags : List String) :
    Transaction × ExpenseTracker :=
  let t : Transaction :=
    { id := get_next_id s.transactions
      type := type
      amount := amount
      category := category
      description := description
      date := today
      tags := tags }
  (t, { s with transactions := s.transactions ++ [t] })

/-- The arguments of one `add_transaction` call. -/
structure AddReq where
  type : TransactionType
  amount : ℚ
  category : String
  description : String
  today : Date
  tags : List String
deriving DecidableEq, Repr

/-- A sequence of `add_transaction` calls; returns the list of returned ids
together with the final state. -/
def add_all : ExpenseTracker → List AddReq → List Int × ExpenseTracker
  | s, [] => ([], s)
  | s, r :: rest =>
      let p := add_transaction s r.type r.amount r.category r.description r.today r.tags
      let q := add_all p.2 rest
      (p.1.id :: q.1, q.2)

/-- `[n, n+1, ..., n+k-1]`. -/
def idsFrom (n : Int) : Nat → List Int
  | 0 => []
  | k + 1 => n :: idsFrom (n + 1) k

/-- `ExpenseTracker.delete_transaction`. -/
def delete_transaction (s : ExpenseTracker) (tid : Int) : ExpenseTracker :=
  { s with transactions := s.transactions.filter (fun t => decide (t.id ≠ tid)) }

/-- Python `str.lower()`. -/
def strLower (s : String) : String := s.map Char.toLower

/-- `needle` is a prefix of `hay` (character lists). -/
def listPrefixB : List Char → List Char → Bool
  | [], _ => true
  | _ :: _, [] => false
  | a :: as, b :: bs => a == b && listPrefixB as bs

/-- Python substring test `needle in hay` (character lists). -/
def listInfixB (needle : List Char) : List Char → Bool
  | [] => listPrefixB needle []
  | b :: bs => listPrefixB needle (b :: bs) || listInfixB needle bs

/-- Python `query.lower() in text.lower()`. -/
def containsCI (text : String) (query : String) : Bool :=
  listInfixB (strLower query).toList (strLower text).toList

def descMatch (query : String) (t : Transaction) : Bool :=
  containsCI t.description query

def tagMatch (query : String) (t : Transaction) : Bool :=
  t.tags.any (fun tag => containsCI tag query)

/-- Loop body of `search_transactions`: `if ... elif ...`. -/
def searchStep (query mode : String) (results : List Transaction) (t : Transaction) :
    List Transaction :=
  if mode ∈ ["all", "description"] ∧ descMatch query t = true then results ++ [t]
  else if mode ∈ ["all", "tags"] ∧ tagMatch query t = true then results ++ [t]
  else results

/-- `ExpenseTracker.search_transactions`. -/
def search_transactions (s : ExpenseTracker) (query : String) (mode : String) :
    List Transaction :=
  s.transactions.foldl (searchStep query mode) []

/-- Loop body of `get_monthly_summary`. -/
def gmsStep (acc : List (Month × (ℚ × ℚ))) (t : Transaction) :
    List (Month × (ℚ × ℚ)) :=
  let m := t.date.ym
  let cur := dictGetD acc m (0, 0)
  match t.type with
  | .income => dictUpsert acc m (cur.1 + t.amount, cur.2)
  | .expense => dictUpsert acc m (cur.1, cur.2 + t.amount)

/-- `ExpenseTracker.get_monthly_summary`. -/
def get_monthly_summary (s : ExpenseTracker) : List (Month × (ℚ × ℚ)) :=
  s.transactions.foldl gmsStep []

/-- Method-call form of `get_category_spending`: the body only reads
`self.transactions` and assigns local variables, so the receiver state it
leaves behind is the one it was given. -/
def get_category_spending_run (s : ExpenseTracker) (m : Option Month) :
    List (String × ℚ) × ExpenseTracker :=
  (get_category_spending s m, s)

/-- Method-call form of `check_budget_alerts`. -/
def check_budget_alerts_run (s : ExpenseTracker) (m : Option Month) :
    List Alert × ExpenseTracker :=
  (check_budget_alerts s m, s)

/-- Method-call form of `calculate_profit_loss`. -/
def calculate_profit_loss_run (s : ExpenseTracker) (m : Option Month) :
    PLResult × ExpenseTracker :=
  (calculate_profit_loss s m, s)

/-- Method-call form of `get_monthly_summary`. -/
def get_monthly_summary_run (s : ExpenseTracker) :
    List (Month × (ℚ × ℚ)) × ExpenseTracker :=
  (get_monthly_summary s, s)

/-- Method-call form of `search_transactions`. -/
def search_transactions_run (s : ExpenseTracker) (query mode : String) :
    List Transaction × ExpenseTracker :=
  (search_transactions s query mode, s)

/-- One record of the `transactions` array of the JSON document: the kind is
a raw string, `tags` may be absent (`item.get('tags', [])`). -/
structure RawTrans where
  id : Int
  type : String
  amount : ℚ
  category : String
  description : String
  date : Date
  tags : Option (List String)
deriving DecidableEq, Repr

/-- A parsed JSON document; either top-level key may be absent
(`data.get('transactions', [])`, `data.get('budget_limits', {})`). -/
structure RawDoc where
  transactions : Option (List RawTrans)
  budget_limits : Option (List (String × ℚ))
deriving DecidableEq, Repr

/-- The backing file: absent, present but not valid JSON, or parsed. -/
inductive Resource where
  | missing
  | invalidJson
  | doc (d : RawDoc)
deriving DecidableEq, Repr

inductive LoadError where
  | parseError
  | badKind (s : String)
deriving DecidableEq, Repr

/-- `TransactionType(item['type'])`: raises `ValueError` on an unknown
string, modelled by `none`. -/
def parseTType (s : String) : Option TransactionType :=
  if s = "income" then some TransactionType.income
  else if s = "expense" then some TransactionType.expense
  else none

def loadTrans (r : RawTrans) : Except LoadError Transaction :=
  match parseTType r.type with
  | some ty =>
      .ok { id := r.id, type := ty, amount := r.amount, category := r.category,
            description := r.description, date := r.date, tags := r.tags.getD [] }
  | none => .error (.badKind r.type)

/-- Monadic map in `Except`: the first failing element aborts the whole
list (the list comprehension in `load_data` either fully succeeds or the
assignment to `self.transactions` never happens). -/
def mapME {α β : Type} (f : α → Except LoadError β) : List α → Except LoadError (List β)
  | [] => .ok []
  | a :: l =>
      match f a with
      | .error e => .error e
      | .ok b =>
          match mapME f l with
          | .error e => .error e
          | .ok bs => .ok (b :: bs)

/-- `ExpenseTracker.load_data`: only `FileNotFoundError` is caught (empty
ledger); a JSON parse error or an unknown kind propagates. -/
def load_data : Resource → Except LoadError ExpenseTracker
  | .missing => .ok ⟨[], []⟩
  | .invalidJson => .error .parseError
  | .doc d =>
      match mapME loadTrans (d.transactions.getD []) with
      | .error e => .error e
      | .ok ts => .ok ⟨ts, d.budget_limits.getD []⟩

/-- One serialized transaction record of `save_data`. -/
def saveTrans (t : Transaction) : RawTrans :=
  { id := t.id, type := t.type.value, amount := t.amount, category := t.category,
    description := t.description, date := t.date, tags := some t.tags }

/-- `ExpenseTracker.save_data`: the document written to the backing file. -/
def save_data (s : ExpenseTracker) : RawDoc :=
  { transactions := some (s.transactions.map saveTrans)
    budget_limits := some s.budget_limits }

/-- The EXPENSE-kind transactions of category `c` whose date falls in the
requested range (spec-side filter for claim C1). -/
def expFilterC (month : Option Month) (c : String) (ts : List Transaction) :
    List Transaction :=
  ts.filter (fun t =>
    decide (t.type = TransactionType.expense) && monthMatches month t.date &&
      decide (t.category = c))

/-- INCOME-kind transactions in range (spec side for claim C3). -/
def incFilter (month : Option Month) (ts : List Transaction) : List Transaction :=
  ts.filter (fun t => decide (t.type = TransactionType.income) && monthMatches month t.date)

/-- EXPENSE-kind transactions in range (spec side for claim C3). -/
def expFilter (month : Option Month) (ts : List Transaction) : List Transaction :=
  ts.filter (fun t => decide (t.type = TransactionType.expense) && monthMatches month t.date)

def sumAmounts (ts : List Transaction) : ℚ :=
  (ts.map Transaction.amount).sum

/-- A concrete ledger state mirroring the demo data of §8 of the design. -/
def demoTracker : ExpenseTracker :=
  { transactions :=
      [ ⟨1, .income, 5000, "Salary", "Monthly salary", ⟨2024, 1, 5⟩, ["salary", "work"]⟩
      , ⟨2, .income, 500, "Freelance", "Web development project", ⟨2024, 1, 8⟩, ["freelance"]⟩
      , ⟨3, .expense, 150, "Food", "Groceries", ⟨2024, 1, 10⟩, ["groceries"]⟩
      , ⟨4, .expense, 75, "Food", "Restaurant dinner", ⟨2024, 1, 12⟩, ["dining", "restaurant"]⟩
      , ⟨5, .expense, 50, "Transport", "Gas", ⟨2024, 1, 15⟩, ["car", "fuel"]⟩ ]
    budget_limits := [("Food", 300), ("Transport", 150)] }

/-- A record with an unknown kind string, for the load-error witness. -/
def badRaw : RawTrans :=
  { id := 1, type := "transfer", amount := 5, category := "Misc",
    description := "x", date := ⟨2024, 1, 1⟩, tags := none }

def badDoc : RawDoc :=
  { transactions := some [badRaw], budget_limits := none }

/-- Combine the spending already accumulated for a category with the
contribution of the remaining transactions. -/
def combineSpend (o : Option ℚ) (ts : List Transaction) : Option ℚ :=
  match o with
  | some v => some (v + sumAmounts ts)
  | none => if ts = [] then none else some (sumAmounts ts)

/-! ## Dictionary lemmas -/

lemma dictLookup_upsert_self {κ α : Type} [DecidableEq κ]
    (l : List (κ × α)) (k : κ) (v : α) :
    dictLookup (dictUpsert l k v) k = some v := by
  induction l with
  | nil => simp [dictUpsert, dictLookup]
  | cons p rest ih =>
      obtain ⟨k', v'⟩ := p
      by_cases h : k' = k
      · simp [dictUpsert, dictLookup, h]
      · simp [dictUpsert, dictLookup, h, ih]

lemma dictLookup_upsert_ne {κ α : Type} [DecidableEq κ]
    (l : List (κ × α)) (k c : κ) (v : α) (hkc : k ≠ c) :
    dictLookup (dictUpsert l k v) c = dictLookup l c := by
  induction l with
  | nil => simp [dictUpsert, dictLookup, hkc]
  | cons p rest ih =>
      obtain ⟨k', v'⟩ := p
      by_cases h : k' = k
      · subst h
        simp [dictUpsert, dictLookup, hkc]
      · simp [dictUpsert, dictLookup, h, ih]

/-! ## Category spending (C1) -/

lemma gcs_foldl_lookup (month : Option Month) (c : String) :
    ∀ (ts : List Transaction) (acc : List (String × ℚ)),
      dictLookup (ts.foldl (gcsStep month) acc) c =
        combineSpend (dictLookup acc c) (expFilterC month c ts) := by
  intro ts
  induction ts with
  | nil =>
      intro acc
      simp only [List.foldl_nil, expFilterC, List.filter_nil, combineSpend, sumAmounts,
        List.map_nil, List.sum_nil]
      cases dictLookup acc c <;> simp
  | cons t ts ih =>
      intro acc
      rw [List.foldl_cons]
      by_cases hty : t.type = TransactionType.expense
      · by_cases hm : monthMatches month t.date
        · by_cases hc : t.category = c
          · subst hc
            have hstep : gcsStep month acc t =
                dictUpsert acc t.category (dictGetD acc t.category 0 + t.amount) := by
              simp [gcsStep, hty, hm]
            rw [hstep, ih, dictLookup_upsert_self]
            have hfil : expFilterC month t.category (t :: ts) =
                t :: expFilterC month t.category ts := by
              simp [expFilterC, hty, hm]
            rw [hfil]
            cases hacc : dictLookup acc t.category with
            | none => simp [combineSpend, dictGetD, hacc, sumAmounts]
            | some v => simp [combineSpend, dictGetD, hacc, sumAmounts, add_assoc]
          · have hstep : gcsStep month acc t =
                dictUpsert acc t.category (dictGetD acc t.category 0 + t.amount) := by
              simp [gcsStep, hty, hm]
            rw [hstep, ih, dictLookup_upsert_ne _ _ _ _ hc]
            have hfil : expFilterC month c (t :: ts) = expFilterC month c ts := by
              simp [expFilterC, hc]
            rw [hfil]
        · have hstep : gcsStep month acc t = acc := by
            simp [gcsStep, hty, hm]
          have hfil : expFilterC month c (t :: ts) = expFilterC month c ts := by
            simp [expFilterC, hm]
          rw [hstep, ih, hfil]
      · have hstep : gcsStep month acc t = acc := by
          simp [gcsStep, hty]
        have hfil : expFilterC month c (t :: ts) = expFilterC month c ts := by
          simp [expFilterC, hty]
        rw [hstep, ih, hfil]

/-- C1: for every ledger state and optional month, `get_category_spending`
maps a category to the sum of the amounts of its EXPENSE-kind transactions
whose date falls in the range, and contains no entry exactly when the
category has no EXPENSE-kind transaction in range; INCOME-kind
transactions never contribute. -/
theorem categorySpending_spec (s : ExpenseTracker) (m : Option Month) (c : String) :
    dictLookup (get_category_spending s m) c =
      if expFilterC m c s.transactions = [] then none
      else some (sumAmounts (expFilterC m c s.transactions)) := by
  rw [get_category_spending, gcs_foldl_lookup]
  simp [dictLookup, combineSpend]

/-! ## Budget alerts (C2) -/

lemma cba_foldl (sp : List (String × ℚ)) :
    ∀ (l : List (String × ℚ)) (acc : List Alert),
      l.foldl (cbaStep sp) acc =
        acc ++ (l.filter (fun p => decide (p.2 < dictGetD sp p.1 0))).map
          (fun p => ⟨p.1, p.2, dictGetD sp p.1 0, dictGetD sp p.1 0 - p.2⟩) := by
  intro l
  induction l with
  | nil => intro acc; simp
  | cons p rest ih =>
      intro acc
      rw [List.foldl_cons]
      by_cases h : p.2 < dictGetD sp p.1 0
      · have hstep : cbaStep sp acc p =
            acc ++ [⟨p.1, p.2, dictGetD sp p.1 0, dictGetD sp p.1 0 - p.2⟩] := by
          simp [cbaStep, h]
        rw [hstep, ih]
        simp [h]
      · have hstep : cbaStep sp acc p = acc := by
          simp [cbaStep, h]
        rw [hstep, ih]
        simp [h]

/-- C2: an alert record is emitted iff its category has a configured limit
strictly below the spending that `get_category_spending` reports for it
(with default 0), and the record carries that limit, that spending, and
their difference; equality of spending and limit, or a missing limit,
yields no alert. -/
theorem budgetAlerts_spec (s : ExpenseTracker) (m : Option Month) (a : Alert) :
    a ∈ check_budget_alerts s m ↔
      ∃ l : ℚ, (a.category, l) ∈ s.budget_limits ∧
        a.limit = l ∧
        a.spent = dictGetD (get_category_spending s m) a.category 0 ∧
        l < a.spent ∧
        a.exceeded_by = a.spent - l := by
  obtain ⟨ac, al, asp, ae⟩ := a
  rw [check_budget_alerts, cba_foldl, List.nil_append]
  simp only [List.mem_map, List.mem_filter, decide_eq_true_eq, Alert.mk.injEq]
  constructor
  · rintro ⟨⟨p1, p2⟩, ⟨hp, hlt⟩, h1, h2, h3, h4⟩
    subst h1; subst h2; subst h3; subst h4
    exact ⟨p2, hp, rfl, rfl, hlt, rfl⟩
  · rintro ⟨l, hmem, hl, hs, hlt, he⟩
    subst hl; subst hs; subst he
    exact ⟨(ac, al), ⟨hmem, hlt⟩, rfl, rfl, rfl, rfl⟩

/-! ## Profit and loss (C3) -/

lemma cpl_foldl (m : Option Month) :
    ∀ (ts : List Transaction) (acc : ℚ × ℚ),
      ts.foldl (cplStep m) acc =
        (acc.1 + sumAmounts (incFilter m ts), acc.2 + sumAmounts (expFilter m ts)) := by
  intro ts
  induction ts with
  | nil => intro acc; simp [incFilter, expFilter, sumAmounts]
  | cons t ts ih =>
      intro acc
      rw [List.foldl_cons]
      by_cases hm : monthMatches m t.date
      · cases hty : t.type with
        | income =>
            have hstep : cplStep m acc t = (acc.1 + t.amount, acc.2) := by
              simp [cplStep, hm, hty]
            have h1 : incFilter m (t :: ts) = t :: incFilter m ts := by
              simp [incFilter, hty, hm]
            have h2 : expFilter m (t :: ts) = expFilter m ts := by
              simp [expFilter, hty, hm]
            rw [hstep, ih, h1, h2]
            simp [sumAmounts, add_assoc]
        | expense =>
            have hstep : cplStep m acc t = (acc.1, acc.2 + t.amount) := by
              simp [cplStep, hm, hty]
            have h1 : incFilter m (t :: ts) = incFilter m ts := by
              simp [incFilter, hty, hm]
            have h2 : expFilter m (t :: ts) = t :: expFilter m ts := by
              simp [expFilter, hty, hm]
            rw [hstep, ih, h1, h2]
            simp [sumAmounts, add_assoc]
      · have hstep : cplStep m acc t = acc := by
          simp [cplStep, hm]
        have h1 : incFilter m (t :: ts) = incFilter m ts := by
          simp [incFilter, hm]
        have h2 : expFilter m (t :: ts) = expFilter m ts := by
          simp [expFilter, hm]
        rw [hstep, ih, h1, h2]

lemma sumAmounts_nonneg {ts : List Transaction} (h : ∀ t ∈ ts, 0 ≤ t.amount) :
    0 ≤ sumAmounts ts := by
  refine List.sum_nonneg ?_
  intro x hx
  obtain ⟨t, ht, rfl⟩ := List.mem_map.mp hx
  exact h t ht

lemma cpl_eq (s : ExpenseTracker) (m : Option Month) :
    calculate_profit_loss s m =
      { total_income := sumAmounts (incFilter m s.transactions)
        total_expenses := sumAmounts (expFilter m s.transactions)
        net_profit :=
          sumAmounts (incFilter m s.transactions) - sumAmounts (expFilter m s.transactions)
        profit_margin :=
          if 0 < sumAmounts (incFilter m s.transactions) then
            (sumAmounts (incFilter m s.transactions) - sumAmounts (expFilter m s.transactions)) /
              sumAmounts (incFilter m s.transactions) * 100
          else 0
        is_profitable :=
          decide (0 < sumAmounts (incFilter m s.transactions) -
            sumAmounts (expFilter m s.transactions)) } := by
  unfold calculate_profit_loss
  rw [cpl_foldl]
  simp

/-- C3: on any ledger state whose amounts satisfy the data-model invariant
(positive), `calculate_profit_loss` returns the income and expense totals
over the transactions in range, their difference as net profit, a margin
of `net/income*100` when income is nonzero and `0` when income is zero,
and profitability exactly when net profit is positive; in particular zero
income with nonzero expenses gives margin 0 and not profitable. -/
theorem profitLoss_spec (s : ExpenseTracker) (m : Option Month)
    (hpos : ∀ t ∈ s.transactions, 0 < t.amount) :
    (calculate_profit_loss s m).total_income = sumAmounts (incFilter m s.transactions) ∧
    (calculate_profit_loss s m).total_expenses = sumAmounts (expFilter m s.transactions) ∧
    (calculate_profit_loss s m).net_profit =
      (calculate_profit_loss s m).total_income - (calculate_profit_loss s m).total_expenses ∧
    ((calculate_profit_loss s m).total_income ≠ 0 →
      (calculate_profit_loss s m).profit_margin =
        (calculate_profit_loss s m).net_profit / (calculate_profit_loss s m).total_income * 100) ∧
    ((calculate_profit_loss s m).total_income = 0 →
      (calculate_profit_loss s m).profit_margin = 0) ∧
    ((calculate_profit_loss s m).is_profitable = true ↔
      0 < (calculate_profit_loss s m).net_profit) ∧
    ((calculate_profit_loss s m).total_income = 0 →
      (calculate_profit_loss s m).total_expenses ≠ 0 →
      (calculate_profit_loss s m).profit_margin = 0 ∧
        (calculate_profit_loss s m).is_profitable = false) := by
  have hInn : 0 ≤ sumAmounts (incFilter m s.transactions) := by
    refine sumAmounts_nonneg ?_
    intro t ht
    exact le_of_lt (hpos t (List.mem_of_mem_filter ht))
  have hEnn : 0 ≤ sumAmounts (expFilter m s.transactions) := by
    refine sumAmounts_nonneg ?_
    intro t ht
    exact le_of_lt (hpos t (List.mem_of_mem_filter ht))
  rw [cpl_eq]
  dsimp only
  refine ⟨rfl, rfl, rfl, ?_, ?_, ?_, ?_⟩
  · intro hne
    rw [if_pos (lt_of_le_of_ne hInn (Ne.symm hne))]
  · intro h0
    rw [h0, if_neg (lt_irrefl 0)]
  · exact decide_eq_true_iff
  · intro h0 hEne
    have hElt : 0 < sumAmounts (expFilter m s.transactions) :=
      lt_of_le_of_ne hEnn (Ne.symm hEne)
    constructor
    · rw [h0, if_neg (lt_irrefl 0)]
    · rw [h0]
      have : ¬ (0 < 0 - sumAmounts (expFilter m s.transactions)) := by linarith
      exact decide_eq_false this

/-- Witness for C3: the demo ledger satisfies the positivity hypothesis,
and the theorem applies to it. -/
theorem profitLoss_spec_witness :
    (∀ t ∈ demoTracker.transactions, 0 < t.amount) ∧
    (calculate_profit_loss demoTracker none).total_income =
      sumAmounts (incFilter none demoTracker.transactions) :=
  ⟨by decide, (profitLoss_spec demoTracker none (by decide)).1⟩

/-! ## Transaction ids (C4) -/

lemma get_next_id_eq (ts : List Transaction) :
    get_next_id ts = ((ts.map Transaction.id).max?.getD 0) + 1 := by
  cases ts with
  | nil => rfl
  | cons t r =>
      show r.foldl (fun m x => max m x.id) t.id + 1 =
        ((r.map Transaction.id).foldl max t.id) + 1
      rw [List.foldl_map]

lemma get_next_id_append (l : List Transaction) (t : Transaction)
    (ht : t.id = get_next_id l) : get_next_id (l ++ [t]) = get_next_id l + 1 := by
  cases l with
  | nil => simp [get_next_id, ht]
  | cons x r =>
      show (r ++ [t]).foldl (fun m y => max m y.id) x.id + 1 = get_next_id (x :: r) + 1
      rw [List.foldl_append]
      show max (r.foldl (fun m y => max m y.id) x.id) t.id + 1 = get_next_id (x :: r) + 1
      rw [ht]
      show max (r.foldl (fun m y => max m y.id) x.id)
          (r.foldl (fun m y => max m y.id) x.id + 1) + 1 =
        r.foldl (fun m y => max m y.id) x.id + 1 + 1
      rw [max_eq_right (by linarith)]

lemma nextId_applyAdd (s : ExpenseTracker) (r : AddReq) :
    get_next_id
        (add_transaction s r.type r.amount r.category r.description r.today r.tags).2.transactions =
      get_next_id s.transactions + 1 :=
  get_next_id_append s.transactions _ rfl

lemma add_all_ids : ∀ (reqs : List AddReq) (s : ExpenseTracker),
    (add_all s reqs).1 = idsFrom (get_next_id s.transactions) reqs.length := by
  intro reqs
  induction reqs with
  | nil => intro s; rfl
  | cons r rest ih =>
      intro s
      show (add_transaction s r.type r.amount r.category r.description r.today r.tags).1.id ::
          (add_all (add_transaction s r.type r.amount r.category r.description r.today
            r.tags).2 rest).1 =
        get_next_id s.transactions :: idsFrom (get_next_id s.transactions + 1) rest.length
      rw [ih, nextId_applyAdd]
      rfl

lemma idsFrom_ge : ∀ (k : Nat) (n x : Int), x ∈ idsFrom n k → n ≤ x := by
  intro k
  induction k with
  | zero => intro n x hx; simp [idsFrom] at hx
  | succ k ih =>
      intro n x hx
      rw [idsFrom] at hx
      rcases List.mem_cons.mp hx with h | h
      · exact le_of_eq h.symm
      · have := ih (n + 1) x h
        linarith

lemma idsFrom_pairwise : ∀ (k : Nat) (n : Int), (idsFrom n k).Pairwise (· < ·) := by
  intro k
  induction k with
  | zero => intro n; simp [idsFrom]
  | succ k ih =>
      intro n
      rw [idsFrom]
      refine List.Pairwise.cons ?_ (ih (n + 1))
      intro x hx
      have := idsFrom_ge k (n + 1) x hx
      linarith

/-- C4: `add_transaction` gives the new transaction the id
`(max existing id, default 0) + 1` and appends it at the end; over any
sequence of `add_transaction` calls the returned ids are strictly
increasing and pairwise distinct. -/
theorem addTransaction_spec :
    (∀ (s : ExpenseTracker) (ty : TransactionType) (a : ℚ) (c d : String)
        (td : Date) (tg : List String),
      (add_transaction s ty a c d td tg).1.id =
        ((s.transactions.map Transaction.id).max?.getD 0) + 1 ∧
      (add_transaction s ty a c d td tg).2.transactions =
        s.transactions ++ [(add_transaction s ty a c d td tg).1]) ∧
    (∀ (s : ExpenseTracker) (reqs : List AddReq),
      (add_all s reqs).1.Pairwise (· < ·) ∧ (add_all s reqs).1.Nodup) := by
  constructor
  · intro s ty a c d td tg
    exact ⟨get_next_id_eq s.transactions, rfl⟩
  · intro s reqs
    rw [add_all_ids]
    refine ⟨idsFrom_pairwise _ _, ?_⟩
    exact (idsFrom_pairwise reqs.length (get_next_id s.transactions)).imp ne_of_lt

/-! ## Deletion (C5) -/

/-- C5: `delete_transaction` removes every transaction with the given id,
keeps the others in their original relative order, leaves the budget
limits untouched, is a no-op when no transaction has the id, and is
idempotent. -/
theorem deleteTransaction_spec (s : ExpenseTracker) (tid : Int) :
    (∀ t ∈ (delete_transaction s tid).transactions, t.id ≠ tid) ∧
    (delete_transaction s tid).transactions.Sublist s.transactions ∧
    (∀ t ∈ s.transactions, t.id ≠ tid → t ∈ (delete_transaction s tid).transactions) ∧
    (delete_transaction s tid).budget_limits = s.budget_limits ∧
    ((∀ t ∈ s.transactions, t.id ≠ tid) → delete_transaction s tid = s) ∧
    delete_transaction (delete_transaction s tid) tid = delete_transaction s tid := by
  have hmem : ∀ t ∈ (delete_transaction s tid).transactions, t.id ≠ tid := by
    intro t ht
    have h := List.mem_filter.mp ht
    simpa using h.2
  have hnoop : ∀ (u : ExpenseTracker), (∀ t ∈ u.transactions, t.id ≠ tid) →
      delete_transaction u tid = u := by
    intro u hu
    have hfe : u.transactions.filter (fun t => decide (t.id ≠ tid)) = u.transactions := by
      refine List.filter_eq_self.mpr ?_
      intro t ht
      simpa using hu t ht
    show { u with transactions := u.transactions.filter (fun t => decide (t.id ≠ tid)) } = u
    rw [hfe]
  refine ⟨hmem, List.filter_sublist _, ?_, rfl, hnoop s, hnoop _ hmem⟩
  intro t ht hne
  exact List.mem_filter.mpr ⟨ht, by simpa using hne⟩

/-- Witness for C5: deleting an id absent from the demo ledger leaves it
unchanged. -/
theorem deleteTransaction_spec_witness :
    (∀ t ∈ demoTracker.transactions, t.id ≠ 99) ∧
    delete_transaction demoTracker 99 = demoTracker :=
  ⟨by decide, (deleteTransaction_spec demoTracker 99).2.2.2.2.1 (by decide)⟩

/-! ## Search (C6, C10) -/

lemma searchStep_or (q mode : String) (r : List Transaction) (t : Transaction) :
    searchStep q mode r t =
      if (mode ∈ ["all", "description"] ∧ descMatch q t = true) ∨
          (mode ∈ ["all", "tags"] ∧ tagMatch q t = true) then r ++ [t] else r := by
  unfold searchStep
  by_cases h1 : mode ∈ ["all", "description"] ∧ descMatch q t = true
  · rw [if_pos h1, if_pos (Or.inl h1)]
  · by_cases h2 : mode ∈ ["all", "tags"] ∧ tagMatch q t = true
    · rw [if_neg h1, if_pos h2, if_pos (Or.inr h2)]
    · rw [if_neg h1, if_neg h2, if_neg (not_or.mpr ⟨h1, h2⟩)]

lemma search_foldl (q mode : String) :
    ∀ (ts : List Transaction) (acc : List Transaction),
      ts.foldl (searchStep q mode) acc =
        acc ++ ts.filter (fun t =>
          decide ((mode ∈ ["all", "description"] ∧ descMatch q t = true) ∨
            (mode ∈ ["all", "tags"] ∧ tagMatch q t = true))) := by
  intro ts
  induction ts with
  | nil => intro acc; simp
  | cons t ts ih =>
      intro acc
      rw [List.foldl_cons, searchStep_or]
      by_cases h : (mode ∈ ["all", "description"] ∧ descMatch q t = true) ∨
          (mode ∈ ["all", "tags"] ∧ tagMatch q t = true)
      · rw [if_pos h, ih, List.filter_cons_of_pos (by exact decide_eq_true h)]
        simp
      · rw [if_neg h, ih, List.filter_cons_of_neg (by simpa using h)]

/-- C6: `search_transactions` returns exactly the filter of the original
list by the mode's predicate — description containment for
`"description"`, containment in some tag for `"tags"`, and their
disjunction for `"all"` — so each list entry appears exactly as often as
in the original (never twice) and in original order. -/
theorem search_mode_spec (s : ExpenseTracker) (q : String) :
    search_transactions s q "description" =
      s.transactions.filter (fun t => descMatch q t) ∧
    search_transactions s q "tags" = s.transactions.filter (fun t => tagMatch q t) ∧
    search_transactions s q "all" =
      s.transactions.filter (fun t => descMatch q t || tagMatch q t) := by
  unfold search_transactions
  rw [search_foldl, search_foldl, search_foldl]
  simp only [List.nil_append]
  refine ⟨?_, ?_, ?_⟩
  · refine List.filter_congr ?_
    intro t ht
    have hm : ("description" : String) ∈ (["all", "description"] : List String) := by decide
    have hm2 : ("description" : String) ∉ (["all", "tags"] : List String) := by decide
    cases hd : descMatch q t <;> simp [hd, hm, hm2]
  · refine List.filter_congr ?_
    intro t ht
    have hm : ("tags" : String) ∉ (["all", "description"] : List String) := by decide
    have hm2 : ("tags" : String) ∈ (["all", "tags"] : List String) := by decide
    cases hg : tagMatch q t <;> simp [hg, hm, hm2]
  · refine List.filter_congr ?_
    intro t ht
    have hm : ("all" : String) ∈ (["all", "description"] : List String) := by decide
    have hm2 : ("all" : String) ∈ (["all", "tags"] : List String) := by decide
    cases hd : descMatch q t <;> cases hg : tagMatch q t <;> simp [hd, hg, hm, hm2]

/-- C10: a mode outside all/description/tags selects nothing: both loop
branches are unreachable, so the result is empty whatever the ledger
holds. -/
theorem search_unknown_mode (s : ExpenseTracker) (q mode : String)
    (h1 : mode ≠ "all") (h2 : mode ≠ "description") (h3 : mode ≠ "tags") :
    search_transactions s q mode = [] := by
  unfold search_transactions
  rw [search_foldl, List.nil_append]
  refine List.filter_eq_nil_iff.mpr ?_
  intro t ht
  simp [h1, h2, h3]

/-- Witness for C10: mode `"xyz"` on the demo ledger returns nothing. -/
theorem search_unknown_mode_witness :
    (("xyz" : String) ≠ "all" ∧ ("xyz" : String) ≠ "description" ∧
      ("xyz" : String) ≠ "tags") ∧
    search_transactions demoTracker "a" "xyz" = [] :=
  ⟨⟨by decide, by decide, by decide⟩,
    search_unknown_mode demoTracker "a" "xyz" (by decide) (by decide) (by decide)⟩

/-! ## Persistence (C7, C8) -/

lemma loadTrans_saveTrans (t : Transaction) : loadTrans (saveTrans t) = .ok t := by
  cases t with
  | mk id ty amount cat desc date tg =>
      cases ty <;> rfl

lemma mapME_map_ok : ∀ (ts : List Transaction), mapME loadTrans (ts.map saveTrans) = .ok ts := by
  intro ts
  induction ts with
  | nil => rfl
  | cons t ts ih =>
      show mapME loadTrans (saveTrans t :: ts.map saveTrans) = .ok (t :: ts)
      rw [mapME, loadTrans_saveTrans, ih]

/-- C7: saving a ledger state and loading the resulting document
reconstructs the state exactly: the same transaction list in the same
order and the same budget-limit mapping. -/
theorem save_load_roundtrip (s : ExpenseTracker) :
    load_data (Resource.doc (save_data s)) = .ok s := by
  show (match mapME loadTrans ((save_data s).transactions.getD []) with
    | .error e => .error e
    | .ok ts => .ok (⟨ts, (save_data s).budget_limits.getD []⟩ : ExpenseTracker)) =
      Except.ok s
  have h : (save_data s).transactions.getD [] = s.transactions.map saveTrans := rfl
  rw [h, mapME_map_ok]
  rfl

lemma mapME_error_of_mem {α β : Type} (f : α → Except LoadError β) :
    ∀ (l : List α) (a : α), a ∈ l → (∃ e, f a = .error e) →
      ∃ e, mapME f l = .error e := by
  intro l
  induction l with
  | nil =>
      intro a ha
      simp at ha
  | cons b l ih =>
      intro a ha hfa
      obtain ⟨e, he⟩ := hfa
      rcases List.mem_cons.mp ha with rfl | hmem
      · exact ⟨e, by rw [mapME, he]⟩
      · cases hb : f b with
        | error e2 => exact ⟨e2, by rw [mapME, hb]⟩
        | ok v =>
            obtain ⟨e2, he2⟩ := ih a hmem ⟨e, he⟩
            exact ⟨e2, by rw [mapME, hb, he2]⟩

/-- C8: a missing backing file loads as the empty ledger; a missing
`transactions` or `budget_limits` key defaults to an empty collection; an
unparseable document, or any record with an unknown kind string, makes the
whole load fail with an error and no state is produced. -/
theorem load_error_spec :
    load_data Resource.missing = .ok ⟨[], []⟩ ∧
    (∀ bl, load_data (Resource.doc ⟨none, bl⟩) = .ok ⟨[], bl.getD []⟩) ∧
    (∀ tr st, load_data (Resource.doc ⟨tr, none⟩) = .ok st → st.budget_limits = []) ∧
    load_data Resource.invalidJson = .error .parseError ∧
    (∀ (d : RawDoc) (r : RawTrans), r ∈ d.transactions.getD [] →
      parseTType r.type = none → ∃ e, load_data (Resource.doc d) = .error e) := by
  refine ⟨rfl, fun bl => rfl, ?_, rfl, ?_⟩
  · intro tr st h
    revert h
    show (match mapME loadTrans ((RawDoc.mk tr none).transactions.getD []) with
      | .error e => .error e
      | .ok ts => .ok (⟨ts, (RawDoc.mk tr none).budget_limits.getD []⟩ : ExpenseTracker)) =
        Except.ok st → st.budget_limits = []
    cases hm : mapME loadTrans ((RawDoc.mk tr none).transactions.getD []) with
    | error e => intro h; exact absurd h (by simp)
    | ok ts =>
        intro h
        have := Except.ok.inj h
        rw [← this]
        rfl
  · intro d r hmem hbad
    obtain ⟨e, he⟩ := mapME_error_of_mem loadTrans (d.transactions.getD []) r hmem
      ⟨.badKind r.type, by rw [loadTrans, hbad]⟩
    refine ⟨e, ?_⟩
    show (match mapME loadTrans (d.transactions.getD []) with
      | .error e => .error e
      | .ok ts => .ok (⟨ts, d.budget_limits.getD []⟩ : ExpenseTracker)) =
        Except.error e
    rw [he]

/-- Witness for C8: a document whose single record has the unknown kind
`"transfer"` fails to load. -/
theorem load_error_spec_witness :
    (badRaw ∈ badDoc.transactions.getD [] ∧ parseTType badRaw.type = none) ∧
    ∃ e, load_data (Resource.doc badDoc) = .error e :=
  ⟨⟨by decide, by decide⟩,
    load_error_spec.2.2.2.2 badDoc badRaw (by decide) (by decide)⟩

/-! ## Queries do not mutate the ledger (C9) -/

/-- C9: the five query operations return their result alongside an
unchanged receiver state: their bodies only read `self.transactions` and
`self.budget_limits` and assign local variables, never the fields. -/
theorem queries_preserve_state (s : ExpenseTracker) (m : Option Month) (q mode : String) :
    (get_category_spending_run s m).2 = s ∧
    (check_budget_alerts_run s m).2 = s ∧
    (calculate_profit_loss_run s m).2 = s ∧
    (get_monthly_summary_run s).2 = s ∧
    (search_transactions_run s q mode).2 = s :=
  ⟨rfl, rfl, rfl, rfl, rfl⟩
